import Mathlib

set_option maxRecDepth 40000

/-!
Formalisation of the kumbuka transcription pipeline
(`src/kumbuka/transcriber.py`): the hallucination detector
`_is_hallucination`, the chunking decision in `transcribe`, the chunked
transcription loop `_transcribe_chunked` with its bounded
restart-and-retry recovery, and the health check `check_whisper`.

The external world (the Whisper HTTP backend, the restart command, the
probed duration) is modelled by an explicit environment record; the pure
text-processing functions are translated directly from the Python source.
-/

/-- ASCII whitespace as stripped by Python `str.strip` and matched by the
regex class `\s`: space, tab, newline, carriage return, vertical tab,
form feed. -/
def isSpaceChar (c : Char) : Bool :=
  c = ' ' || c = '\t' || c = '\n' || c = '\r' || c = '\x0b' || c = '\x0c'

/-- Python `str.strip` on a character list: drop leading and trailing
whitespace. -/
def stripChars (l : List Char) : List Char :=
  ((l.dropWhile isSpaceChar).reverse.dropWhile isSpaceChar).reverse

/-- Python `str.strip` on a string. -/
def pyStrip (s : String) : String := ⟨stripChars s.data⟩

/-- Python `str.split` on a single newline character: splitting keeps empty
pieces, so for example splitting the data of "a\n\nb" gives the pieces
"a", "" and "b", and splitting the empty list gives one empty piece. -/
def splitOnNl : List Char → List (List Char)
  | [] => [[]]
  | c :: rest =>
    match splitOnNl rest with
    | [] => [[]]
    | g :: gs => if c = '\n' then [] :: g :: gs else (c :: g) :: gs

/-- The non-empty stripped lines of a transcript, exactly as computed by
`_is_hallucination`: strip the whole text, split on newlines, strip each
line and keep the non-empty ones. -/
def textLines (text : String) : List String :=
  ((splitOnNl (stripChars text.data)).map (fun l => (⟨stripChars l⟩ : String))).filter
    (fun l => !(l == ""))

/-- The multiplicity of the most frequent element of a list (0 for the empty
list); `Counter(l).most_common(1)[0][1]` in the source. -/
def mostCommonCount (l : List String) : Nat :=
  (l.map (fun x => l.count x)).foldr max 0

/-- Scan up to the first closing delimiter: the content before it together
with the remainder after it, or `none` when no closing delimiter occurs. -/
def splitAtClose (closeC : Char) : List Char → Option (List Char × List Char)
  | [] => none
  | c :: rest =>
    if c = closeC then some ([], rest)
    else
      match splitAtClose closeC rest with
      | none => none
      | some (pre, post) => some (c :: pre, post)

/-- Whether the characters between the two delimiters match the regex body
`\s* [^close]{1,40} \s*`: the content is non-empty and its
whitespace-stripped core has at most 40 characters.  The leading and
trailing `\s*` absorb any surrounding whitespace, and the 1-to-40 middle
part must cover everything from the first to the last non-whitespace
character; an all-whitespace content matches with a single whitespace
character taken by the middle part. -/
def tokenMatches (content : List Char) : Bool :=
  !content.isEmpty && (stripChars content).length ≤ 40

/-- `re.findall` of the pattern `open \s* [^close]{1,40} \s* close` over the
text.  A candidate match begins at an opening delimiter and necessarily ends
at the first closing delimiter after it (the middle of the pattern cannot
cross a closing delimiter); when the candidate fails the scan resumes one
character after the opening delimiter, and when it succeeds the scan resumes
after the match, as the regex engine does.  The fuel argument (one unit per
character of the original text) makes the scan structurally recursive; it
never runs out because every recursive call consumes at least one
character. -/
def findTokensAux (openC closeC : Char) : Nat → List Char → List String
  | 0, _ => []
  | _, [] => []
  | fuel + 1, c :: rest =>
    if c = openC then
      match splitAtClose closeC rest with
      | some (content, rest') =>
        if tokenMatches content then
          (⟨openC :: (content ++ [closeC])⟩ : String) ::
            findTokensAux openC closeC fuel rest'
        else findTokensAux openC closeC fuel rest
      | none => findTokensAux openC closeC fuel rest
    else findTokensAux openC closeC fuel rest

/-- All delimited tokens of the text, in order of occurrence. -/
def findTokens (openC closeC : Char) (l : List Char) : List String :=
  findTokensAux openC closeC l.length l

/-- `_is_hallucination` from `src/kumbuka/transcriber.py`.  Texts shorter
than 100 characters are never flagged; then texts with fewer than 5
non-empty lines are never flagged; then the text is flagged when the most
frequent line accounts for more than 80 percent of the non-empty lines,
or when at least 5 bracket tokens occur of which the most frequent one has
at least 5 occurrences and more than half of all occurrences, or when the
analogous condition holds for parenthesis tokens.  The Python ratio
comparisons `x / n > 0.8` and `x / n > 0.5` are rendered exactly as
`4 * n < 5 * x` and `n < 2 * x`. -/
def is_hallucination (text : String) : Bool :=
  if text.length < 100 then false
  else
    let lines := textLines text
    if lines.length < 5 then false
    else if lines.length * 4 < mostCommonCount lines * 5 then true
    else
      let brackets := findTokens '[' ']' text.data
      if 5 ≤ brackets.length ∧ 5 ≤ mostCommonCount brackets ∧
          brackets.length < mostCommonCount brackets * 2 then true
      else
        let parens := findTokens '(' ')' text.data
        decide (5 ≤ parens.length ∧ 5 ≤ mostCommonCount parens ∧
          parens.length < mostCommonCount parens * 2)

/-- `CHUNK_DURATION_SECS` from the source: chunk length in seconds. -/
def CHUNK_DURATION_SECS : ℚ := 600

/-- The condition `duration and duration > chunkSecs * 1.5` deciding the
chunked path in `transcribe`, for an arbitrary chunk length.  A missing
duration (failed probe) and a zero duration (falsy float) both take the
direct path. -/
def shouldChunkAt (chunkSecs : ℚ) (duration : Option ℚ) : Bool :=
  match duration with
  | none => false
  | some d => decide (d ≠ 0) && decide (chunkSecs * 1.5 < d)

/-- The chunking decision of `transcribe`, with the source's chunk length. -/
def shouldChunk (duration : Option ℚ) : Bool :=
  shouldChunkAt CHUNK_DURATION_SECS duration

/-- The failure sentinel substituted for a chunk that still hallucinates
after a backend restart. -/
def SENTINEL : String := "[TRANSCRIPTION FAILED - AUDIO SEGMENT UNCLEAR]"

/-- The environment of one `transcribe` call: everything the pipeline
observes from the outside world.  `duration` is the probed duration
(`none` when `ffprobe` fails); `direct1` is the text the backend returns
for the whole recording, and `direct2` the text it returns for the whole
recording after a restart; `chunks` holds the text the backend returns for
each chunk on the first pass, and `chunkRetry i` the text it returns for
chunk `i` after a restart; `restartOk` tells whether `_restart_whisper`
succeeds (it returns `False` both when no restart command is configured
and when the relaunched server never becomes healthy). -/
structure Env where
  duration : Option ℚ
  direct1 : String
  direct2 : String
  chunks : List String
  chunkRetry : Nat → String
  restartOk : Bool

/-- The observable outcome of one `transcribe` call: the returned value
(`none` for Python `None`), the number of `_restart_whisper` invocations,
the number of `_transcribe_single` invocations, and the transcript text
written to the session file (`none` when nothing is persisted). -/
structure TResult where
  result : Option String
  restarts : Nat
  calls : Nat
  saved : Option String

/-- The first loop of `_transcribe_chunked`: transcribe every chunk in
order, recording `none` and the chunk's index (from `enumerate`) when the
text is flagged as a hallucination, and the text itself otherwise. -/
def firstPass : List String → Nat → List (Option String) × List Nat
  | [], _ => ([], [])
  | t :: rest, i =>
    let r := firstPass rest (i + 1)
    if is_hallucination t then (none :: r.1, i :: r.2) else (some t :: r.1, r.2)

/-- The value stored for a retried chunk: the retry text, or the sentinel
when the retry still hallucinates. -/
def retryEntry (r : String) : String :=
  if is_hallucination r then SENTINEL else r

/-- The retry loop of `_transcribe_chunked`: for each failed index, in
order, overwrite the transcript slot at that index with the retried
chunk's entry. -/
def applyRetries (retryRes : Nat → String) : List Nat → List (Option String) → List (Option String)
  | [], ts => ts
  | i :: rest, ts => applyRetries retryRes rest (ts.set i (some (retryEntry (retryRes i))))

/-- The transcript slots after the retry phase: the retry loop runs exactly
when some chunk failed, retry is enabled and the restart succeeded. -/
def finalTranscripts (e : Env) (flag : Bool) : List (Option String) :=
  let fp := firstPass e.chunks 0
  if (!fp.2.isEmpty) && flag && e.restartOk then
    applyRetries e.chunkRetry fp.2 fp.1
  else fp.1

/-- Python truthiness filter of `"\n\n".join(t for t in transcripts if t)`:
`None` and the empty string are dropped. -/
def truthy : Option String → Option String
  | none => none
  | some s => if s = "" then none else some s

/-- Python `sep.join`. -/
def joinSep (sep : String) : List String → String
  | [] => ""
  | [s] => s
  | s :: t :: rest => s ++ sep ++ joinSep sep (t :: rest)

/-- `_transcribe_chunked` from the source, over the environment: first pass
over all chunks, one restart and one retry pass over the failed chunks when
enabled and successful, then the double-newline join of the truthy slots;
the empty combined text is returned as `None` and nothing is persisted for
it. -/
def transcribe_chunked (e : Env) (flag : Bool) : TResult :=
  let fp := firstPass e.chunks 0
  let doRetry := (!fp.2.isEmpty) && flag
  let restarts : Nat := if doRetry then 1 else 0
  let calls : Nat := e.chunks.length + (if doRetry && e.restartOk then fp.2.length else 0)
  let combined := joinSep "\n\n" ((finalTranscripts e flag).filterMap truthy)
  if combined = "" then
    { result := none, restarts := restarts, calls := calls, saved := none }
  else
    { result := some combined, restarts := restarts, calls := calls, saved := some combined }

/-- `transcribe` with `retry_on_hallucination=False`: the retried attempt.
On the chunked path the retry loop is disabled by the flag; on the direct
path a hallucination is returned as `None` with no further restart, and
otherwise the text (possibly empty) is returned, persisted only when
non-empty. -/
def transcribeNoRetry (e : Env) : TResult :=
  if shouldChunk e.duration then transcribe_chunked e false
  else if is_hallucination e.direct2 then
    { result := none, restarts := 0, calls := 1, saved := none }
  else if e.direct2 = "" then
    { result := some "", restarts := 0, calls := 1, saved := none }
  else
    { result := some e.direct2, restarts := 0, calls := 1, saved := some e.direct2 }

/-- `transcribe` from the source with `retry_on_hallucination=True` (its
default): probe the duration and take the chunked path for long audio;
otherwise transcribe directly, and on a hallucination invoke
`_restart_whisper` once, recursing with the flag cleared when the restart
succeeds and returning `None` when it fails; a non-flagged text is
returned, persisted only when non-empty. -/
def transcribe (e : Env) : TResult :=
  if shouldChunk e.duration then transcribe_chunked e true
  else if is_hallucination e.direct1 then
    if e.restartOk then
      let r := transcribeNoRetry e
      { result := r.result, restarts := r.restarts + 1, calls := r.calls + 1,
        saved := r.saved }
    else { result := none, restarts := 1, calls := 1, saved := none }
  else if e.direct1 = "" then
    { result := some "", restarts := 0, calls := 1, saved := none }
  else
    { result := some e.direct1, restarts := 0, calls := 1, saved := some e.direct1 }

/-- `check_whisper` from the source, over the outcome of the health-check
request: `Except.error` stands for any raised exception (unreachable
backend, timeout), `Except.ok s` for a response with HTTP status `s`.
The function is total: every outcome yields a boolean. -/
def check_whisper (resp : Except Unit Nat) : Bool :=
  match resp with
  | Except.ok status => status == 200
  | Except.error _ => false

/-- Per-segment outcome as the specification describes it, computed
independently per ordinal index: an unflagged first-pass text stands as is;
a flagged chunk yields the retried entry (recovered text or sentinel) when
retry is enabled and the restart succeeded, and an untouched `none` slot
otherwise. -/
def chunkOutcomeSpec (e : Env) (flag : Bool) (t : String) (i : Nat) : Option String :=
  if is_hallucination t then
    if flag && e.restartOk then some (retryEntry (e.chunkRetry i)) else none
  else some t

/-- The list of per-segment outcomes in ordinal order. -/
def outcomeList (e : Env) (flag : Bool) : List String → Nat → List (Option String)
  | [], _ => []
  | t :: rest, i => chunkOutcomeSpec e flag t i :: outcomeList e flag rest (i + 1)

/-- The outcome of a chunk when retry is enabled and restart succeeds, as a
total text: the first-pass text when it was not flagged, the retried entry
(recovered text or sentinel) when it was. -/
def fullOutcome (e : Env) (t : String) (i : Nat) : String :=
  if is_hallucination t then retryEntry (e.chunkRetry i) else t

/-- The list of total per-chunk outcomes, one per chunk in ordinal order. -/
def fullOutcomeList (e : Env) : List String → Nat → List String
  | [], _ => []
  | t :: rest, i => fullOutcome e t i :: fullOutcomeList e rest (i + 1)

/-- A degenerate transcript: one line repeated ten times, 110 characters. -/
def hTxt : String := "Thank you.\nThank you.\nThank you.\nThank you.\nThank you.\nThank you.\nThank you.\nThank you.\nThank you.\nThank you.\n"

/-- A single-line text of 104 characters made of eight identical bracket
tokens. -/
def bTxt : String := "[hello world][hello world][hello world][hello world][hello world][hello world][hello world][hello world]"

/-- A five-line text of over 100 characters whose five distinct lines each
carry the same bracket token. -/
def wTxt : String := "[z] line one padding text\n[z] line two padding text\n[z] line three padding\n[z] line four padding tt\n[z] line five padding tt"

/-- Chunked environment in which chunk 0 hallucinates and the backend
restart fails (for instance because no restart command is configured). -/
def envCx : Env :=
  { duration := some 1200, direct1 := "", direct2 := "", chunks := [hTxt, "hello"],
    chunkRetry := fun _ => "", restartOk := false }

/-- Chunked environment in which chunk 0 hallucinates, the restart
succeeds, and the retried chunk still hallucinates. -/
def envW1 : Env :=
  { duration := some 1200, direct1 := "", direct2 := "", chunks := [hTxt, "hello"],
    chunkRetry := fun _ => hTxt, restartOk := true }

/-- Direct-path environment in which the transcription hallucinates and
the restart fails. -/
def envH : Env :=
  { duration := none, direct1 := hTxt, direct2 := "", chunks := [],
    chunkRetry := fun _ => "", restartOk := false }

/-- Direct-path environment in which the backend returns empty text, with
all-empty chunk texts. -/
def envA : Env :=
  { duration := none, direct1 := "", direct2 := "", chunks := ["", ""],
    chunkRetry := fun _ => "", restartOk := false }

/-- Direct-path environment with a clean non-empty transcription. -/
def envB : Env :=
  { duration := none, direct1 := "some ordinary transcript", direct2 := "",
    chunks := [], chunkRetry := fun _ => "", restartOk := false }

/-- A text of fewer than 100 characters is never flagged (first guard of
`_is_hallucination`). -/
theorem is_hallucination_of_short (text : String) (h : text.length < 100) :
    is_hallucination text = false := by
  simp [is_hallucination, h]

/-- Setting a slot within bounds is observable at that slot. -/
theorem getElem?_set_self_of_lt (l : List α) (i : Nat) (a : α) (h : i < l.length) :
    (l.set i a)[i]? = some a := by
  induction l generalizing i with
  | nil => simp at h
  | cons x xs ih =>
    cases i with
    | zero => simp
    | succ n =>
      simp only [List.set_cons_succ, List.getElem?_cons_succ]
      exact ih n (by simpa using h)

/-- Setting a slot leaves every other slot unchanged. -/
theorem getElem?_set_of_ne (l : List α) (i j : Nat) (a : α) (h : i ≠ j) :
    (l.set i a)[j]? = l[j]? := by
  induction l generalizing i j with
  | nil => simp
  | cons x xs ih =>
    cases i with
    | zero =>
      cases j with
      | zero => exact absurd rfl h
      | succ m => simp
    | succ n =>
      cases j with
      | zero => simp
      | succ m =>
        simp only [List.set_cons_succ, List.getElem?_cons_succ]
        exact ih n m (by omega)

/-- Unfolding `firstPass` on a flagged head chunk, slot component. -/
theorem firstPass_fst_cons_pos (t : String) (rest : List String) (i : Nat)
    (h : is_hallucination t = true) :
    (firstPass (t :: rest) i).1 = none :: (firstPass rest (i + 1)).1 := by
  simp [firstPass, h]

/-- Unfolding `firstPass` on an unflagged head chunk, slot component. -/
theorem firstPass_fst_cons_neg (t : String) (rest : List String) (i : Nat)
    (h : is_hallucination t = false) :
    (firstPass (t :: rest) i).1 = some t :: (firstPass rest (i + 1)).1 := by
  simp [firstPass, h]

/-- Unfolding `firstPass` on a flagged head chunk, failed-index component. -/
theorem firstPass_snd_cons_pos (t : String) (rest : List String) (i : Nat)
    (h : is_hallucination t = true) :
    (firstPass (t :: rest) i).2 = i :: (firstPass rest (i + 1)).2 := by
  simp [firstPass, h]

/-- Unfolding `firstPass` on an unflagged head chunk, failed-index
component. -/
theorem firstPass_snd_cons_neg (t : String) (rest : List String) (i : Nat)
    (h : is_hallucination t = false) :
    (firstPass (t :: rest) i).2 = (firstPass rest (i + 1)).2 := by
  simp [firstPass, h]

/-- The first pass produces one transcript slot per chunk. -/
theorem firstPass_fst_length (l : List String) : ∀ (i : Nat),
    (firstPass l i).1.length = l.length := by
  induction l with
  | nil => intro i; rfl
  | cons t rest ih =>
    intro i
    cases hb : is_hallucination t with
    | false => simp [firstPass_fst_cons_neg t rest i hb, ih]
    | true => simp [firstPass_fst_cons_pos t rest i hb, ih]

/-- Slot `j` of the first pass holds chunk `j`'s text when it was not
flagged and `none` when it was. -/
theorem firstPass_fst_getElem? (l : List String) : ∀ (i j : Nat),
    (firstPass l i).1[j]? =
      (l[j]?).map (fun t => if is_hallucination t then none else some t) := by
  induction l with
  | nil => intro i j; simp [firstPass]
  | cons t rest ih =>
    intro i j
    cases j with
    | zero =>
      cases hb : is_hallucination t with
      | false => simp [firstPass_fst_cons_neg t rest i hb, hb]
      | true => simp [firstPass_fst_cons_pos t rest i hb, hb]
    | succ m =>
      cases hb : is_hallucination t with
      | false => simp [firstPass_fst_cons_neg t rest i hb, ih]
      | true => simp [firstPass_fst_cons_pos t rest i hb, ih]

/-- The failed-index list of the first pass holds exactly the (absolute)
indices of the flagged chunks. -/
theorem firstPass_snd_mem (l : List String) : ∀ (i k : Nat),
    k ∈ (firstPass l i).2 ↔
      ∃ j t, k = i + j ∧ l[j]? = some t ∧ is_hallucination t = true := by
  induction l with
  | nil => intro i k; simp [firstPass]
  | cons t rest ih =>
    intro i k
    cases hb : is_hallucination t with
    | true =>
      rw [firstPass_snd_cons_pos t rest i hb, List.mem_cons]
      constructor
      · rintro (rfl | hm)
        · exact ⟨0, t, by omega, by simp, hb⟩
        · rcases (ih (i + 1) k).mp hm with ⟨j, u, rfl, hu, hhu⟩
          exact ⟨j + 1, u, by omega, by simpa using hu, hhu⟩
      · rintro ⟨j, u, hk, hu, hhu⟩
        cases j with
        | zero => exact Or.inl (by omega)
        | succ m =>
          exact Or.inr ((ih (i + 1) k).mpr ⟨m, u, by omega, by simpa using hu, hhu⟩)
    | false =>
      rw [firstPass_snd_cons_neg t rest i hb, ih (i + 1) k]
      constructor
      · rintro ⟨j, u, rfl, hu, hhu⟩
        exact ⟨j + 1, u, by omega, by simpa using hu, hhu⟩
      · rintro ⟨j, u, hk, hu, hhu⟩
        cases j with
        | zero =>
          simp only [List.getElem?_cons_zero, Option.some.injEq] at hu
          subst hu
          rw [hb] at hhu
          cases hhu
        | succ m =>
          exact ⟨m, u, by omega, by simpa using hu, hhu⟩

/-- Every failed index is at least the starting index. -/
theorem firstPass_snd_ge (l : List String) (i : Nat) :
    ∀ k ∈ (firstPass l i).2, i ≤ k := by
  intro k hk
  rcases (firstPass_snd_mem l i k).mp hk with ⟨j, t, rfl, _, _⟩
  omega

/-- Every failed index is within bounds. -/
theorem firstPass_snd_lt (l : List String) (k : Nat)
    (hk : k ∈ (firstPass l 0).2) : k < l.length := by
  rcases (firstPass_snd_mem l 0 k).mp hk with ⟨j, t, rfl, hu, _⟩
  have hlen : j < l.length := by
    by_contra hh
    rw [List.getElem?_eq_none (by omega)] at hu
    exact Option.noConfusion hu
  omega

/-- The failed indices are pairwise distinct. -/
theorem firstPass_snd_nodup (l : List String) : ∀ (i : Nat),
    ((firstPass l i).2).Nodup := by
  induction l with
  | nil => intro i; simp [firstPass]
  | cons t rest ih =>
    intro i
    cases hb : is_hallucination t with
    | false => rw [firstPass_snd_cons_neg t rest i hb]; exact ih (i + 1)
    | true =>
      rw [firstPass_snd_cons_pos t rest i hb, List.nodup_cons]
      refine ⟨fun hmem => ?_, ih (i + 1)⟩
      have := firstPass_snd_ge rest (i + 1) i hmem
      omega

/-- No chunk failed exactly when no chunk's text is flagged. -/
theorem firstPass_snd_isEmpty (l : List String) : ∀ (i : Nat),
    ((firstPass l i).2 = [] ↔ ∀ t ∈ l, is_hallucination t = false) := by
  induction l with
  | nil => intro i; simp [firstPass]
  | cons t rest ih =>
    intro i
    cases hb : is_hallucination t with
    | false => simp [firstPass_snd_cons_neg t rest i hb, ih, hb]
    | true => simp [firstPass_snd_cons_pos t rest i hb, hb]

/-- The retry loop overwrites exactly the slots at the failed indices with
the retried entries, leaving all other slots alone. -/
theorem applyRetries_getElem? (r : Nat → String) (fs : List Nat) :
    ∀ (ts : List (Option String)), fs.Nodup →
      (∀ k ∈ fs, k < ts.length) → ∀ j,
    (applyRetries r fs ts)[j]? =
      if j ∈ fs then some (some (retryEntry (r j))) else ts[j]? := by
  induction fs with
  | nil => intro ts _ _ j; simp [applyRetries]
  | cons k rest ih =>
    intro ts hnd hlt j
    have hknr : k ∉ rest := (List.nodup_cons.mp hnd).1
    have hrest : rest.Nodup := (List.nodup_cons.mp hnd).2
    have hk : k < ts.length := hlt k (List.mem_cons_self k rest)
    simp only [applyRetries]
    rw [ih (ts.set k (some (retryEntry (r k)))) hrest
      (fun m hm => by simpa using hlt m (List.mem_cons_of_mem k hm)) j]
    by_cases hjr : j ∈ rest
    · simp [hjr, List.mem_cons]
    · by_cases hjk : j = k
      · subst hjk
        simp [hjr, getElem?_set_self_of_lt ts j _ hk]
      · have hnotc : ¬ j ∈ (k :: rest) := by
          simp [List.mem_cons, hjk, hjr]
        simp only [hjr, if_false, hnotc]
        exact getElem?_set_of_ne ts k j _ (fun hh => hjk hh.symm)

/-- The outcome list has one entry per chunk. -/
theorem outcomeList_length (e : Env) (flag : Bool) (l : List String) : ∀ (i : Nat),
    (outcomeList e flag l i).length = l.length := by
  induction l with
  | nil => intro i; rfl
  | cons t rest ih => intro i; simp [outcomeList, ih]

/-- Entry `j` of the outcome list is chunk `j`'s outcome. -/
theorem outcomeList_getElem? (e : Env) (flag : Bool) (l : List String) : ∀ (i j : Nat),
    (outcomeList e flag l i)[j]? =
      (l[j]?).map (fun t => chunkOutcomeSpec e flag t (i + j)) := by
  induction l with
  | nil => intro i j; simp [outcomeList]
  | cons t rest ih =>
    intro i j
    cases j with
    | zero => simp [outcomeList]
    | succ m =>
      simp only [outcomeList, List.getElem?_cons_succ, ih (i + 1) m]
      have : i + 1 + m = i + (m + 1) := by omega
      rw [this]

/-- Refinement of the mutating first-pass-then-retry implementation by the
per-index outcome description: the transcript slots after the retry phase
are exactly the per-segment outcomes, in ordinal order. -/
theorem finalTranscripts_eq_outcomeList (e : Env) (flag : Bool) :
    finalTranscripts e flag = outcomeList e flag e.chunks 0 := by
  apply List.ext_get?_iff.mpr
  intro j
  simp only [List.get?_eq_getElem?]
  rw [outcomeList_getElem? e flag e.chunks 0 j]
  unfold finalTranscripts
  by_cases hcond : ((!(firstPass e.chunks 0).2.isEmpty) && flag && e.restartOk) = true
  · rw [if_pos hcond]
    have hflag : flag = true := by
      rcases Bool.and_eq_true_iff.mp hcond with ⟨h1, _⟩
      exact (Bool.and_eq_true_iff.mp h1).2
    have hrok : e.restartOk = true := (Bool.and_eq_true_iff.mp hcond).2
    rw [applyRetries_getElem? e.chunkRetry (firstPass e.chunks 0).2 (firstPass e.chunks 0).1
      (firstPass_snd_nodup e.chunks 0)
      (fun k hk => by
        rw [firstPass_fst_length e.chunks 0]
        exact firstPass_snd_lt e.chunks k hk) j]
    by_cases hj : j ∈ (firstPass e.chunks 0).2
    · rw [if_pos hj]
      rcases (firstPass_snd_mem e.chunks 0 j).mp hj with ⟨j', t, hj', ht, hht⟩
      have : j' = j := by omega
      subst this
      rw [ht]
      simp [chunkOutcomeSpec, hht, hflag, hrok]
    · rw [if_neg hj, firstPass_fst_getElem? e.chunks 0 j]
      cases hc : e.chunks[j]? with
      | none => simp
      | some t =>
        have hht : is_hallucination t = false := by
          by_contra hh
          exact hj ((firstPass_snd_mem e.chunks 0 j).mpr
            ⟨j, t, by omega, hc, by revert hh; cases is_hallucination t <;> simp⟩)
        simp [chunkOutcomeSpec, hht]
  · rw [if_neg hcond, firstPass_fst_getElem? e.chunks 0 j]
    cases hc : e.chunks[j]? with
    | none => simp
    | some t =>
      cases hht : is_hallucination t with
      | false => simp [chunkOutcomeSpec, hht]
      | true =>
        have hne : (firstPass e.chunks 0).2 ≠ [] := by
          intro hh
          rw [firstPass_snd_isEmpty e.chunks 0] at hh
          have hmem : t ∈ e.chunks := List.getElem?_mem hc
          rw [hh t hmem] at hht
          cases hht
        have hA : (!(firstPass e.chunks 0).2.isEmpty) = true := by
          simpa [List.isEmpty_iff] using hne
        have hfr : (flag && e.restartOk) = false := by
          cases hfl : flag <;> cases hro : e.restartOk <;> simp_all
        simp [chunkOutcomeSpec, hht, hfr]

/-- The joined text of a non-empty list of non-empty pieces is non-empty. -/
theorem joinSep_ne_empty (l : List String) (hl : l ≠ [])
    (hne : ∀ s ∈ l, s ≠ "") : joinSep "\n\n" l ≠ "" := by
  cases l with
  | nil => exact absurd rfl hl
  | cons s rest =>
    cases rest with
    | nil => exact hne s (by simp)
    | cons t rest' =>
      intro hcontra
      have hlen := congrArg String.length hcontra
      rw [joinSep] at hlen
      simp only [String.length_append] at hlen
      have h2 : ("\n\n" : String).length = 2 := by decide
      have h0 : ("" : String).length = 0 := by decide
      omega

/-- Dropping the truthiness filter over outcomes that are all present and
non-empty. -/
theorem filterMap_truthy_map_some (l : List String) (hne : ∀ s ∈ l, s ≠ "") :
    (l.map some).filterMap truthy = l := by
  induction l with
  | nil => rfl
  | cons s rest ih =>
    have hs : s ≠ "" := hne s (by simp)
    simp only [List.map_cons, List.filterMap_cons]
    have htr : truthy (some s) = some s := by simp [truthy, hs]
    rw [htr, ih (fun u hu => hne u (by simp [hu]))]

/-- The returned value of `_transcribe_chunked`. -/
theorem transcribe_chunked_result (e : Env) (flag : Bool) :
    (transcribe_chunked e flag).result =
      (if joinSep "\n\n" ((finalTranscripts e flag).filterMap truthy) = "" then none
       else some (joinSep "\n\n" ((finalTranscripts e flag).filterMap truthy))) := by
  by_cases hc : joinSep "\n\n" ((finalTranscripts e flag).filterMap truthy) = ""
  · simp [transcribe_chunked, hc]
  · simp [transcribe_chunked, hc]

/-- The persisted text of `_transcribe_chunked`. -/
theorem transcribe_chunked_saved (e : Env) (flag : Bool) :
    (transcribe_chunked e flag).saved =
      truthy (transcribe_chunked e flag).result := by
  by_cases hc : joinSep "\n\n" ((finalTranscripts e flag).filterMap truthy) = ""
  · simp [transcribe_chunked, hc, truthy]
  · simp [transcribe_chunked, hc, truthy]

/-- The restart count of `_transcribe_chunked`. -/
theorem transcribe_chunked_restarts (e : Env) (flag : Bool) :
    (transcribe_chunked e flag).restarts =
      (if (!(firstPass e.chunks 0).2.isEmpty) && flag then 1 else 0) := by
  by_cases hc : joinSep "\n\n" ((finalTranscripts e flag).filterMap truthy) = ""
  · simp [transcribe_chunked, hc]
  · simp [transcribe_chunked, hc]

/-- The transcription-call count of `_transcribe_chunked`. -/
theorem transcribe_chunked_calls (e : Env) (flag : Bool) :
    (transcribe_chunked e flag).calls =
      e.chunks.length +
        (if ((!(firstPass e.chunks 0).2.isEmpty) && flag) && e.restartOk then
          (firstPass e.chunks 0).2.length else 0) := by
  by_cases hc : joinSep "\n\n" ((finalTranscripts e flag).filterMap truthy) = ""
  · simp [transcribe_chunked, hc]
  · simp [transcribe_chunked, hc]

/-- At most as many chunks fail as exist. -/
theorem firstPass_snd_length_le (l : List String) : ∀ (i : Nat),
    (firstPass l i).2.length ≤ l.length := by
  induction l with
  | nil => intro i; simp [firstPass]
  | cons t rest ih =>
    intro i
    cases hb : is_hallucination t with
    | false =>
      rw [firstPass_snd_cons_neg t rest i hb]
      have := ih (i + 1)
      simp only [List.length_cons]
      omega
    | true =>
      rw [firstPass_snd_cons_pos t rest i hb]
      have := ih (i + 1)
      simp only [List.length_cons]
      omega

/-- The retried attempt persists the transcript exactly when it returns a
non-empty text. -/
theorem transcribeNoRetry_saved (e : Env) :
    (transcribeNoRetry e).saved = truthy (transcribeNoRetry e).result := by
  unfold transcribeNoRetry
  by_cases hd : shouldChunk e.duration = true
  · rw [if_pos hd]
    exact transcribe_chunked_saved e false
  · rw [if_neg hd]
    by_cases h2 : is_hallucination e.direct2 = true
    · rw [if_pos h2]
      simp [truthy]
    · rw [if_neg h2]
      by_cases he : e.direct2 = ""
      · rw [if_pos he]
        simp [truthy]
      · rw [if_neg he]
        simp [truthy, he]

/-- `transcribe` persists the transcript exactly when it returns a
non-empty text. -/
theorem transcribe_saved (e : Env) :
    (transcribe e).saved = truthy (transcribe e).result := by
  unfold transcribe
  by_cases hd : shouldChunk e.duration = true
  · rw [if_pos hd]
    exact transcribe_chunked_saved e true
  · rw [if_neg hd]
    by_cases h1 : is_hallucination e.direct1 = true
    · rw [if_pos h1]
      by_cases hr : e.restartOk = true
      · rw [if_pos hr]
        exact transcribeNoRetry_saved e
      · rw [if_neg hr]
        simp [truthy]
    · rw [if_neg h1]
      by_cases he : e.direct1 = ""
      · rw [if_pos he]
        simp [truthy]
      · rw [if_neg he]
        simp [truthy, he]

/-- The retried attempt never invokes a backend restart: its retry flag is
cleared. -/
theorem transcribeNoRetry_restarts (e : Env) :
    (transcribeNoRetry e).restarts = 0 := by
  unfold transcribeNoRetry
  by_cases hd : shouldChunk e.duration = true
  · rw [if_pos hd, transcribe_chunked_restarts]
    simp
  · rw [if_neg hd]
    by_cases h2 : is_hallucination e.direct2 = true
    · rw [if_pos h2]
    · rw [if_neg h2]
      by_cases he : e.direct2 = ""
      · rw [if_pos he]
      · rw [if_neg he]

/-- A full `transcribe` call invokes at most one backend restart. -/
theorem transcribe_restarts_le (e : Env) : (transcribe e).restarts ≤ 1 := by
  unfold transcribe
  by_cases hd : shouldChunk e.duration = true
  · rw [if_pos hd, transcribe_chunked_restarts]
    split <;> omega
  · rw [if_neg hd]
    by_cases h1 : is_hallucination e.direct1 = true
    · rw [if_pos h1]
      by_cases hr : e.restartOk = true
      · rw [if_pos hr]
        have := transcribeNoRetry_restarts e
        simp only []
        omega
      · rw [if_neg hr]
    · rw [if_neg h1]
      by_cases he : e.direct1 = ""
      · rw [if_pos he]
        simp
      · rw [if_neg he]
        simp

/-- On the direct path the retried attempt performs exactly one backend
call. -/
theorem transcribeNoRetry_calls_direct (e : Env)
    (hd : shouldChunk e.duration = false) : (transcribeNoRetry e).calls = 1 := by
  unfold transcribeNoRetry
  rw [if_neg (by simp [hd])]
  by_cases h2 : is_hallucination e.direct2 = true
  · rw [if_pos h2]
  · rw [if_neg h2]
    by_cases he : e.direct2 = ""
    · rw [if_pos he]
    · rw [if_neg he]

/-- On the direct path each call chain performs at most two backend
transcription calls: the first attempt and at most one retry. -/
theorem transcribe_calls_direct (e : Env)
    (hd : shouldChunk e.duration = false) : (transcribe e).calls ≤ 2 := by
  unfold transcribe
  rw [if_neg (by simp [hd])]
  by_cases h1 : is_hallucination e.direct1 = true
  · rw [if_pos h1]
    by_cases hr : e.restartOk = true
    · rw [if_pos hr]
      have := transcribeNoRetry_calls_direct e hd
      simp only []
      omega
    · rw [if_neg hr]
      simp
  · rw [if_neg h1]
    by_cases he : e.direct1 = ""
    · rw [if_pos he]
      simp
    · rw [if_neg he]
      simp

/-- On the chunked path each chunk is transcribed at most twice: once in
the first pass and at most once in the retry pass. -/
theorem transcribe_calls_chunked (e : Env)
    (hd : shouldChunk e.duration = true) :
    (transcribe e).calls ≤ 2 * e.chunks.length := by
  unfold transcribe
  rw [if_pos hd, transcribe_chunked_calls]
  have := firstPass_snd_length_le e.chunks 0
  split <;> omega

/-- With retry disabled (or enabled), the truthy entries of the outcomes of
all-empty chunk texts vanish. -/
theorem outcomeList_allEmpty (e : Env) (flag : Bool) : ∀ (l : List String) (i : Nat),
    (∀ t ∈ l, t = "") → (outcomeList e flag l i).filterMap truthy = [] := by
  intro l
  induction l with
  | nil => intro i _; rfl
  | cons t rest ih =>
    intro i hall
    have ht : t = "" := hall t (by simp)
    subst ht
    have hh : is_hallucination "" = false := is_hallucination_of_short "" (by decide)
    simp only [outcomeList, List.filterMap_cons, chunkOutcomeSpec, hh]
    have htr : truthy (some "") = none := by simp [truthy]
    simp only [Bool.false_eq_true, if_false, htr]
    exact ih (i + 1) (fun u hu => hall u (by simp [hu]))

/-- One total outcome per chunk. -/
theorem fullOutcomeList_length (e : Env) : ∀ (l : List String) (i : Nat),
    (fullOutcomeList e l i).length = l.length := by
  intro l
  induction l with
  | nil => intro i; rfl
  | cons t rest ih => intro i; simp [fullOutcomeList, ih]

/-- Entry `j` of the total outcome list. -/
theorem fullOutcomeList_getElem? (e : Env) : ∀ (l : List String) (i j : Nat),
    (fullOutcomeList e l i)[j]? = (l[j]?).map (fun t => fullOutcome e t (i + j)) := by
  intro l
  induction l with
  | nil => intro i j; simp [fullOutcomeList]
  | cons t rest ih =>
    intro i j
    cases j with
    | zero => simp [fullOutcomeList]
    | succ m =>
      simp only [fullOutcomeList, List.getElem?_cons_succ, ih (i + 1) m]
      have : i + 1 + m = i + (m + 1) := by omega
      rw [this]

/-- When retry is enabled and the restart succeeds, every chunk's outcome
is present: the outcome list is the total outcome list. -/
theorem outcomeList_eq_map_fullOutcome (e : Env) (hr : e.restartOk = true) :
    ∀ (l : List String) (i : Nat),
    outcomeList e true l i = (fullOutcomeList e l i).map some := by
  intro l
  induction l with
  | nil => intro i; rfl
  | cons t rest ih =>
    intro i
    simp only [outcomeList, fullOutcomeList, List.map_cons, ih (i + 1)]
    by_cases hb : is_hallucination t = true
    · simp [chunkOutcomeSpec, fullOutcome, hb, hr]
    · simp only [Bool.not_eq_true] at hb
      simp [chunkOutcomeSpec, fullOutcome, hb]

/-- C1 (counterexample): in a chunked transcription where chunk 0
hallucinates and the backend restart fails, the combined transcript is just
chunk 1's text: the transcript slot of chunk 0 stays `none` and is dropped
by the truthiness filter, so segment 0 contributes no entry at all — neither
its text, nor a retry result, nor the sentinel — refuting the claim that
every segment contributes exactly one entry. -/
theorem c1_per_segment_entry_counterexample :
    envCx.chunks.length = 2 ∧
    is_hallucination hTxt = true ∧
    envCx.restartOk = false ∧
    finalTranscripts envCx true = [none, some "hello"] ∧
    (transcribe_chunked envCx true).result = some "hello" ∧
    ("hello" : String) ≠ SENTINEL ∧ ("hello" : String) ≠ hTxt := by
  refine ⟨rfl, by decide, rfl, by decide, by decide, by decide, by decide⟩

/-- C1 (amended): in a chunked transcription in which retry is enabled and
the backend restart succeeds, and no per-chunk outcome is the empty string,
every segment contributes exactly one entry to the combined transcript in
its ordinal position — its transcribed text when it was not flagged, and
otherwise its retried text or the failure sentinel (`retryEntry`) — and a
chunk that fails even after recovery does not abort the processing of
subsequent chunks: the combined transcript is the join of one entry per
segment. -/
theorem c1_per_segment_entry (e : Env) (hr : e.restartOk = true)
    (hne : e.chunks ≠ [])
    (hout : ∀ s ∈ fullOutcomeList e e.chunks 0, s ≠ "") :
    (fullOutcomeList e e.chunks 0).length = e.chunks.length ∧
    (transcribe_chunked e true).result =
      some (joinSep "\n\n" (fullOutcomeList e e.chunks 0)) ∧
    (∀ (i : Nat) (t : String), e.chunks[i]? = some t →
      (fullOutcomeList e e.chunks 0)[i]? = some t ∨
      (fullOutcomeList e e.chunks 0)[i]? = some (retryEntry (e.chunkRetry i))) := by
  have hfl : fullOutcomeList e e.chunks 0 ≠ [] := by
    intro hh
    have hlen := fullOutcomeList_length e e.chunks 0
    rw [hh] at hlen
    cases hc : e.chunks with
    | nil => exact hne hc
    | cons a as => rw [hc] at hlen; simp at hlen
  refine ⟨fullOutcomeList_length e e.chunks 0, ?_, ?_⟩
  · rw [transcribe_chunked_result, finalTranscripts_eq_outcomeList,
      outcomeList_eq_map_fullOutcome e hr, filterMap_truthy_map_some _ hout,
      if_neg (joinSep_ne_empty _ hfl hout)]
  · intro i t ht
    rw [fullOutcomeList_getElem?, ht]
    simp only [Option.map_some', Nat.zero_add]
    by_cases hb : is_hallucination t = true
    · exact Or.inr (by simp [fullOutcome, hb])
    · simp only [Bool.not_eq_true] at hb
      exact Or.inl (by simp [fullOutcome, hb])

/-- C1 (witness for the amended theorem): two chunks, chunk 0 hallucinates,
restart succeeds, the retried chunk still hallucinates and yields the
sentinel in position 0, chunk 1's text follows in position 1. -/
theorem c1_per_segment_entry_witness :
    (transcribe_chunked envW1 true).result =
      some (joinSep "\n\n" (fullOutcomeList envW1 envW1.chunks 0)) :=
  (c1_per_segment_entry envW1 rfl (by decide) (by decide)).2.1

/-- C2 (counterexample): a 104-character single-line text consisting of
eight identical bracket tokens satisfies every bracket-side premise of the
claim (at least 5 tokens, most frequent one with at least 5 occurrences and
more than half of all), yet the detector returns false, because the
fewer-than-5-non-empty-lines guard returns before the bracket check runs:
the bracket check is not independent of the line-count requirement. -/
theorem c2_bracket_check_counterexample :
    100 ≤ bTxt.length ∧
    5 ≤ (findTokens '[' ']' bTxt.data).length ∧
    5 ≤ mostCommonCount (findTokens '[' ']' bTxt.data) ∧
    (findTokens '[' ']' bTxt.data).length <
      mostCommonCount (findTokens '[' ']' bTxt.data) * 2 ∧
    (textLines bTxt).length < 5 ∧
    is_hallucination bTxt = false := by
  refine ⟨by decide, by decide, by decide, by decide, by decide, by decide⟩

/-- C2 (amended): for every text of at least 100 characters that also has
at least 5 non-empty lines, if at least 5 bracket tokens are found of which
the most frequent one has at least 5 occurrences and accounts for more than
half of all bracket tokens, the detector returns true; without 5 non-empty
lines the detector returns false before reaching the bracket check. -/
theorem c2_bracket_check (text : String) (h100 : 100 ≤ text.length)
    (h5 : 5 ≤ (textLines text).length)
    (hb : 5 ≤ (findTokens '[' ']' text.data).length)
    (hm : 5 ≤ mostCommonCount (findTokens '[' ']' text.data))
    (hr : (findTokens '[' ']' text.data).length <
      mostCommonCount (findTokens '[' ']' text.data) * 2) :
    is_hallucination text = true := by
  simp only [is_hallucination]
  rw [if_neg (by omega : ¬ text.length < 100),
    if_neg (by omega : ¬ (textLines text).length < 5)]
  by_cases hline : (textLines text).length * 4 < mostCommonCount (textLines text) * 5
  · rw [if_pos hline]
  · rw [if_neg hline, if_pos ⟨hb, hm, hr⟩]

/-- C2 (witness): a 124-character text with five distinct non-empty lines,
each carrying the same bracket token, is flagged. -/
theorem c2_bracket_check_witness :
    (100 ≤ wTxt.length ∧ 5 ≤ (textLines wTxt).length ∧
      5 ≤ (findTokens '[' ']' wTxt.data).length ∧
      5 ≤ mostCommonCount (findTokens '[' ']' wTxt.data) ∧
      (findTokens '[' ']' wTxt.data).length <
        mostCommonCount (findTokens '[' ']' wTxt.data) * 2) ∧
    is_hallucination wTxt = true :=
  ⟨⟨by decide, by decide, by decide, by decide, by decide⟩,
    c2_bracket_check wTxt (by decide) (by decide) (by decide) (by decide) (by decide)⟩

/-- C3: for every positive chunk length and probed duration, the chunked
path is taken if and only if the duration is known and exceeds 1.5 times
the chunk length; the boundary case and the unknown-duration case take the
direct path.  (`shouldChunk`, the decision used by `transcribe`, is
`shouldChunkAt CHUNK_DURATION_SECS` with the source's 600-second chunk
length.) -/
theorem c3_chunking_rule (L : ℚ) (hL : 0 < L) (D : Option ℚ) :
    shouldChunkAt L D = true ↔ ∃ d, D = some d ∧ L * 1.5 < d := by
  cases D with
  | none => simp [shouldChunkAt]
  | some d =>
    simp only [shouldChunkAt, Bool.and_eq_true, decide_eq_true_eq]
    constructor
    · rintro ⟨_, hgt⟩
      exact ⟨d, rfl, hgt⟩
    · rintro ⟨d', hd', hgt⟩
      cases hd'
      refine ⟨?_, hgt⟩
      have h15 : 0 < L * 1.5 := by positivity
      exact ne_of_gt (lt_trans h15 hgt)

/-- C3 (witness): with the source's 600-second chunk length, a probed
duration of 901 seconds takes the chunked path. -/
theorem c3_chunking_rule_witness :
    shouldChunkAt 600 (some 901) = true ↔
      ∃ d, (some (901 : ℚ)) = some d ∧ (600 : ℚ) * 1.5 < d :=
  c3_chunking_rule 600 (by norm_num) (some 901)

/-- C4: every text of at least 100 characters with at least 5 non-empty
lines whose most frequent line accounts for more than 80 percent of the
non-empty lines is flagged as a hallucination. -/
theorem c4_repeated_lines (text : String) (h100 : 100 ≤ text.length)
    (h5 : 5 ≤ (textLines text).length)
    (hmc : (textLines text).length * 4 < mostCommonCount (textLines text) * 5) :
    is_hallucination text = true := by
  simp only [is_hallucination]
  rw [if_neg (by omega : ¬ text.length < 100),
    if_neg (by omega : ¬ (textLines text).length < 5), if_pos hmc]

/-- C4 (witness): a single line repeated 10 times (110 characters, all 10
non-empty lines identical, a 100 percent share) is flagged. -/
theorem c4_repeated_lines_witness :
    (100 ≤ hTxt.length ∧ 5 ≤ (textLines hTxt).length ∧
      (textLines hTxt).length * 4 < mostCommonCount (textLines hTxt) * 5) ∧
    is_hallucination hTxt = true :=
  ⟨⟨by decide, by decide, by decide⟩,
    c4_repeated_lines hTxt (by decide) (by decide) (by decide)⟩

/-- C5: every input of fewer than 100 characters is never flagged,
regardless of content. -/
theorem c5_short_input_never_flagged (text : String) (h : text.length < 100) :
    is_hallucination text = false :=
  is_hallucination_of_short text h

/-- C5 (witness): a concrete short input. -/
theorem c5_short_input_never_flagged_witness :
    ("Thank you." : String).length < 100 ∧ is_hallucination "Thank you." = false :=
  ⟨by decide, c5_short_input_never_flagged "Thank you." (by decide)⟩

/-- C6: for every chunked transcription, the combined transcript is the
double-newline join, in ordinal index order, of the per-chunk outcomes
(first-pass text, retried text or sentinel, or an untouched empty slot),
omitting exactly the empty outcomes — the truthiness filter drops `none`
slots and empty strings only; which chunks required retry does not affect
the order, because the retry loop writes back by index.  The outcome list
has exactly one entry per segment. -/
theorem c6_ordered_join (e : Env) (flag : Bool) :
    ((transcribe_chunked e flag).result =
      (if joinSep "\n\n" ((outcomeList e flag e.chunks 0).filterMap truthy) = "" then
        none
       else some (joinSep "\n\n" ((outcomeList e flag e.chunks 0).filterMap truthy)))) ∧
    (outcomeList e flag e.chunks 0).length = e.chunks.length := by
  refine ⟨?_, outcomeList_length e flag e.chunks 0⟩
  rw [transcribe_chunked_result, finalTranscripts_eq_outcomeList]

/-- C7: on the direct path, when the transcription is flagged and recovery
is unavailable or fails (`_restart_whisper` returns false) or the retried
attempt is flagged again (retry budget exhausted), `transcribe` returns an
absent result and persists nothing — no exception is modelled because every
branch returns a value. -/
theorem c7_direct_failure_absent (e : Env)
    (hd : shouldChunk e.duration = false)
    (h1 : is_hallucination e.direct1 = true)
    (h2 : e.restartOk = false ∨ is_hallucination e.direct2 = true) :
    (transcribe e).result = none ∧ (transcribe e).saved = none := by
  unfold transcribe
  rw [if_neg (by simp [hd]), if_pos h1]
  rcases h2 with h2 | h2
  · rw [if_neg (by simp [h2])]
    exact ⟨rfl, rfl⟩
  · by_cases hr : e.restartOk = true
    · rw [if_pos hr]
      refine ⟨?_, ?_⟩
      · show (transcribeNoRetry e).result = none
        unfold transcribeNoRetry
        rw [if_neg (by simp [hd]), if_pos h2]
      · show (transcribeNoRetry e).saved = none
        unfold transcribeNoRetry
        rw [if_neg (by simp [hd]), if_pos h2]
    · rw [if_neg hr]
      exact ⟨rfl, rfl⟩

/-- C7 (witness): direct path, hallucinated text, restart unavailable. -/
theorem c7_direct_failure_absent_witness :
    shouldChunk envH.duration = false ∧ is_hallucination envH.direct1 = true ∧
    envH.restartOk = false ∧
    (transcribe envH).result = none ∧ (transcribe envH).saved = none :=
  ⟨rfl, by decide, rfl,
    (c7_direct_failure_absent envH rfl (by decide) (Or.inl rfl)).1,
    (c7_direct_failure_absent envH rfl (by decide) (Or.inl rfl)).2⟩

/-- C8: hallucination-triggered retry is bounded to depth 1: every call
chain invokes at most one backend restart; the retried attempt (flag
cleared) never invokes a restart; and the number of backend transcription
calls is bounded — at most 2 on the direct path, at most 2 per chunk on
the chunked path. -/
theorem c8_bounded_retry (e : Env) :
    (transcribe e).restarts ≤ 1 ∧
    (transcribeNoRetry e).restarts = 0 ∧
    (shouldChunk e.duration = false → (transcribe e).calls ≤ 2) ∧
    (shouldChunk e.duration = true → (transcribe e).calls ≤ 2 * e.chunks.length) :=
  ⟨transcribe_restarts_le e, transcribeNoRetry_restarts e,
    fun hd => transcribe_calls_direct e hd,
    fun hd => transcribe_calls_chunked e hd⟩

/-- C8 (witness): a concrete direct-path call chain. -/
theorem c8_bounded_retry_witness :
    (transcribe envB).restarts ≤ 1 ∧ (transcribe envB).calls ≤ 2 :=
  ⟨(c8_bounded_retry envB).1, (c8_bounded_retry envB).2.2.1 rfl⟩

/-- C9: the health check is total over its outcomes: it returns true
exactly when the request succeeds with HTTP status 200, and false on any
other status and on any raised exception; being a total function into
`Bool`, it never raises to its caller. -/
theorem c9_health_check_total (resp : Except Unit Nat) :
    check_whisper resp = true ↔ resp = Except.ok 200 := by
  cases resp with
  | error u => simp [check_whisper]
  | ok s => simp [check_whisper]

/-- C10: a session transcript file is written if and only if the returned
text is non-empty (the persisted text is the truthiness filter of the
returned value); in particular an empty, unflagged direct transcription is
returned as the empty string with nothing persisted, and a chunked
transcription whose chunk texts are all empty combines to the empty string
and is returned as `None`. -/
theorem c10_persist_iff_nonempty (e : Env) :
    (transcribe e).saved = truthy (transcribe e).result ∧
    ((shouldChunk e.duration = false ∧ e.direct1 = "") →
      (transcribe e).result = some "" ∧ (transcribe e).saved = none) ∧
    ((∀ t ∈ e.chunks, t = "") → (transcribe_chunked e true).result = none) := by
  refine ⟨transcribe_saved e, ?_, ?_⟩
  · rintro ⟨hd, he⟩
    have hh : is_hallucination e.direct1 = false := by
      rw [he]
      exact is_hallucination_of_short "" (by decide)
    unfold transcribe
    rw [if_neg (by simp [hd]), if_neg (by simp [hh]), if_pos he]
    exact ⟨rfl, rfl⟩
  · intro hall
    rw [transcribe_chunked_result, finalTranscripts_eq_outcomeList,
      outcomeList_allEmpty e true e.chunks 0 hall]
    simp [joinSep]

/-- C10 (witness): an empty direct transcription returns the empty string
and persists nothing; an all-empty chunked transcription returns `None`. -/
theorem c10_persist_iff_nonempty_witness :
    (transcribe envA).result = some "" ∧ (transcribe envA).saved = none ∧
    (transcribe_chunked envA true).result = none :=
  ⟨((c10_persist_iff_nonempty envA).2.1 ⟨rfl, rfl⟩).1,
    ((c10_persist_iff_nonempty envA).2.1 ⟨rfl, rfl⟩).2,
    (c10_persist_iff_nonempty envA).2.2 (by decide)⟩
